import Mathlib

/-!
Verification of `shared_code/timeseries.py`: a shallow embedding of the
value classifier (`get_record_type`), the atomic record builder
(`create_atomic_record`) and the recursive flattener
(`create_record_recursive`), together with proofs of the specified
properties.

Python runtime values reaching this module are modelled by the inductive
type `Value`; Python floats are represented by rationals, since the code
never computes with them and only inspects their runtime type.  The
flattener mutates its `records` argument in place in Python, so it is
embedded in state-passing style: the result is the final contents of the
`records` list paired with the raised error, if any.
-/

namespace Timeseries

/-- A Python runtime value as it can appear in a payload handed to
`create_record_recursive` / `get_record_type`.  `obj` stands for any other
Python object, carrying only its runtime type name. -/
inductive Value : Type where
  | str (s : String)
  | bool (b : Bool)
  | int (n : Int)
  | float (q : Rat)
  | list (elems : List Value)
  | dict (entries : List (String × Value))
  | none
  | obj (typeName : String)
  deriving Repr

/-- `class PayloadType(Enum)` from the source. -/
inductive PayloadType : Type where
  | NUMBER
  | STRING
  | BOOLEAN
  | GEOGRAPHY
  deriving Repr

/-- The `.value` attribute of the `PayloadType` enum members. -/
def PayloadType.value : PayloadType → String
  | .NUMBER => "number"
  | .STRING => "string"
  | .BOOLEAN => "boolean"
  | .GEOGRAPHY => "geography"

/-- The `TypeError` exceptions raised by `get_record_type`, keeping the
data interpolated into the two f-string messages. -/
inductive RecordTypeError : Type where
  | invalidCoordinatePair (offending : List Value)
  | unknownPayloadType (typeName : String)
  deriving Repr

/-- Python `isinstance(x, str)`. -/
def isinstance_str : Value → Bool
  | .str _ => true
  | _ => false

/-- Python `type(x) == type(True)`: exactly the `bool` type, no subtyping. -/
def type_is_bool : Value → Bool
  | .bool _ => true
  | _ => false

/-- Python `isinstance(x, (int, float))`.  `bool` is a subclass of `int`
in Python, so booleans satisfy this check. -/
def isinstance_int_float : Value → Bool
  | .bool _ => true
  | .int _ => true
  | .float _ => true
  | _ => false

/-- Python `isinstance(x, list)`. -/
def isinstance_list : Value → Bool
  | .list _ => true
  | _ => false

/-- The element list of a `list` value (used after an `isinstance` check). -/
def list_elems : Value → List Value
  | .list xs => xs
  | _ => []

/-- Python `type(x).__name__`. -/
def py_type_name : Value → String
  | .str _ => "str"
  | .bool _ => "bool"
  | .int _ => "int"
  | .float _ => "float"
  | .list _ => "list"
  | .dict _ => "dict"
  | .none => "NoneType"
  | .obj t => t

/-- `get_record_type(payload)` from the source: the ordered
`isinstance` chain mapping a payload to its `PayloadType`, raising
`TypeError` on lists that are not coordinate pairs and on unknown types. -/
def get_record_type (payload : Value) : Except RecordTypeError PayloadType :=
  if isinstance_str payload then .ok .STRING
  else if type_is_bool payload then .ok .BOOLEAN
  else if isinstance_int_float payload then .ok .NUMBER
  else if isinstance_list payload then
    if (list_elems payload).length = 2 ∧ (list_elems payload).all isinstance_int_float then
      .ok .GEOGRAPHY
    else
      .error (.invalidCoordinatePair (list_elems payload))
  else
    .error (.unknownPayloadType (py_type_name payload))

/-- The record dictionary built by `create_atomic_record`. -/
structure AtomicRecord : Type where
  timestamp : String
  measurement_subject : String
  measurement_publisher : String
  measurement_of : String
  measurement_value : Value
  measurement_data_type : String
  correlation_id : Option String
  deriving Repr

/-- `create_atomic_record(...)` from the source: packs the arguments
into a record, storing the enum member's string `.value`. -/
def create_atomic_record (source_timestamp : String)
    (measurement_subject : String) (measurement_publisher : String)
    (measurement_of : String) (measurement_value : Value)
    (measurement_data_type : PayloadType)
    (correlation_id : Option String) : AtomicRecord :=
  { timestamp := source_timestamp
    measurement_subject := measurement_subject
    measurement_publisher := measurement_publisher
    measurement_of := measurement_of
    measurement_value := measurement_value
    measurement_data_type := measurement_data_type.value
    correlation_id := correlation_id }

/-- Python `isinstance(x, dict)`. -/
def isinstance_dict : Value → Bool
  | .dict _ => true
  | _ => false

/-- The entry list of a `dict` value (used after an `isinstance` check). -/
def dict_entries : Value → List (String × Value)
  | .dict es => es
  | _ => []

/-- The skip test of the source loop: `key` is skipped unless
`ignore_keys is None or key not in ignore_keys` holds. -/
def is_ignored (ignore_keys : Option (List String)) (key : String) : Bool :=
  match ignore_keys with
  | Option.none => false
  | some iks => iks.contains key

/-- The `measurement_of` expression of the source: the key itself, or
`f"{measurement_of_prefix}_{key}"` when a prefix is supplied. -/
def measurement_of_name ( measurement_of_prefix : Option String)
    (key : String) : String :=
  match measurement_of_prefix with
  | Option.none => key
  | some p => p ++ "_" ++ key

/-- The `for key in payload` loop of `create_record_recursive`, in
state-passing style over the mutable `records` list: the result is the
final contents of `records` paired with the raised `TypeError`, if any.
Iteration follows the dict's entry (insertion) order.  The recursive call
on a nested dict goes directly back into the loop; this equals the
source's call to `create_record_recursive` on the sub-dict, see
`record_loop_eq_create_record_recursive`. -/
def record_loop (timestamp : String) (correlation_id : Option String)
    (measurement_publisher : String) (measurement_subject : String)
    (ignore_keys : Option (List String)) ( measurement_of_prefix : Option String) :
    List (String × Value) → List AtomicRecord →
      List AtomicRecord × Option RecordTypeError
  | [], records => (records, Option.none)
  | (key, value) :: rest, records =>
    if is_ignored ignore_keys key then
      record_loop timestamp correlation_id measurement_publisher
        measurement_subject ignore_keys measurement_of_prefix rest records
    else if isinstance_dict value then
      match record_loop timestamp correlation_id measurement_publisher
          measurement_subject ignore_keys measurement_of_prefix
          (dict_entries value) records with
      | (records2, Option.none) =>
        record_loop timestamp correlation_id measurement_publisher
          measurement_subject ignore_keys measurement_of_prefix rest records2
      | (records2, some e) => (records2, some e)
    else
      match get_record_type value with
      | Except.ok t =>
        record_loop timestamp correlation_id measurement_publisher
          measurement_subject ignore_keys measurement_of_prefix rest
          (records ++ [create_atomic_record timestamp measurement_subject
            measurement_publisher
            (measurement_of_name measurement_of_prefix key) value t
            correlation_id])
      | Except.error e => (records, some e)
  termination_by entries _ => sizeOf entries
  decreasing_by
    all_goals simp_wf
    all_goals first
    | omega
    | (have h : sizeOf (dict_entries value) ≤ sizeOf value := by
         cases value <;> simp [dict_entries]
       omega)

/-- `create_record_recursive(payload, records, ...)` from the source.
`payload` is `None` or a dict.  The result is the final contents of the
(in Python, mutated in place) `records` list together with the raised
`TypeError`, if any; on success the source returns exactly that list. -/
def create_record_recursive (payload : Option (List (String × Value)))
    (records : List AtomicRecord) (timestamp : String)
    (correlation_id : Option String) (measurement_publisher : String)
    (measurement_subject : String) (ignore_keys : Option (List String))
    ( measurement_of_prefix : Option String) :
    List AtomicRecord × Option RecordTypeError :=
  match payload with
  | Option.none => (records, Option.none)
  | some entries =>
    if entries.isEmpty then (records, Option.none)
    else record_loop timestamp correlation_id measurement_publisher
      measurement_subject ignore_keys measurement_of_prefix entries records

/-- The spec's `flatten` contract (section 4.2 has no accumulator
parameter): `create_record_recursive` called with a fresh empty
`records` list, as an external caller would. -/
def flatten (payload : Option (List (String × Value))) (timestamp : String)
    (correlation_id : Option String) (measurement_publisher : String)
    (measurement_subject : String) (ignore_keys : Option (List String))
    ( measurement_of_prefix : Option String) :
    List AtomicRecord × Option RecordTypeError :=
  create_record_recursive payload [] timestamp correlation_id
    measurement_publisher measurement_subject ignore_keys measurement_of_prefix

/-- Spec-side description (sections 3 and 4.2), for refinement comparison:
the leaf `(key, value)` pairs of a payload in depth-first pre-order, key
(insertion) order preserved at every nesting level, with ignored keys and
their whole subtrees skipped. -/
def specPreorderLeaves (ignore_keys : Option (List String)) :
    List (String × Value) → List (String × Value)
  | [] => []
  | (k, v) :: rest =>
    if is_ignored ignore_keys k then specPreorderLeaves ignore_keys rest
    else if isinstance_dict v then
      specPreorderLeaves ignore_keys (dict_entries v) ++
        specPreorderLeaves ignore_keys rest
    else (k, v) :: specPreorderLeaves ignore_keys rest
  termination_by entries => sizeOf entries
  decreasing_by
    all_goals simp_wf
    all_goals first
    | omega
    | (have h : sizeOf (dict_entries v) ≤ sizeOf v := by
         cases v <;> simp [dict_entries]
       omega)

/-- Spec-side description (section 7), for refinement comparison: the
classification error of the first non-ignored leaf value, in traversal
order, that fails classification — `Option.none` when every non-ignored
leaf classifies successfully. -/
def specFirstFailure (ignore_keys : Option (List String)) :
    List (String × Value) → Option RecordTypeError
  | [] => Option.none
  | (k, v) :: rest =>
    if is_ignored ignore_keys k then specFirstFailure ignore_keys rest
    else if isinstance_dict v then
      match specFirstFailure ignore_keys (dict_entries v) with
      | some e => some e
      | Option.none => specFirstFailure ignore_keys rest
    else
      match get_record_type v with
      | Except.ok _ => specFirstFailure ignore_keys rest
      | Except.error e => some e
  termination_by entries => sizeOf entries
  decreasing_by
    all_goals simp_wf
    all_goals first
    | omega
    | (have h : sizeOf (dict_entries v) ≤ sizeOf v := by
         cases v <;> simp [dict_entries]
       omega)

/-- The payload with every entry whose key is in the ignore set removed,
at every nesting depth (used to state that ignored keys and their
subtrees contribute nothing to flattening). -/
def erase_ignored (ignore_keys : Option (List String)) :
    List (String × Value) → List (String × Value)
  | [] => []
  | (k, v) :: rest =>
    if is_ignored ignore_keys k then erase_ignored ignore_keys rest
    else if isinstance_dict v then
      (k, Value.dict (erase_ignored ignore_keys (dict_entries v))) ::
        erase_ignored ignore_keys rest
    else (k, v) :: erase_ignored ignore_keys rest
  termination_by entries => sizeOf entries
  decreasing_by
    all_goals simp_wf
    all_goals first
    | omega
    | (have h : sizeOf (dict_entries v) ≤ sizeOf v := by
         cases v <;> simp [dict_entries]
       omega)

/-- Whether a payload contains an entry with key `k` at any nesting
depth. -/
def mentions_key (k : String) : List (String × Value) → Bool
  | [] => false
  | (k2, v) :: rest =>
    k2 == k || (isinstance_dict v && mentions_key k (dict_entries v)) ||
      mentions_key k rest
  termination_by entries => sizeOf entries
  decreasing_by
    all_goals simp_wf
    all_goals first
    | omega
    | (have h : sizeOf (dict_entries v) ≤ sizeOf v := by
         cases v <;> simp [dict_entries]
       omega)

/-! ### Unfolding lemmas for the loop -/

theorem rl_nil (ts : String) (cid : Option String) (pub subj : String)
    (iks : Option (List String)) (pre : Option String)
    (records : List AtomicRecord) :
    record_loop ts cid pub subj iks pre [] records = (records, Option.none) := by
  simp [record_loop]

theorem rl_cons_ignored (ts : String) (cid : Option String) (pub subj : String)
    (iks : Option (List String)) (pre : Option String) (key : String)
    (value : Value) (rest : List (String × Value)) (records : List AtomicRecord)
    (h : is_ignored iks key = true) :
    record_loop ts cid pub subj iks pre ((key, value) :: rest) records =
      record_loop ts cid pub subj iks pre rest records := by
  rw [record_loop.eq_def]
  simp [h]

theorem rl_cons_dict (ts : String) (cid : Option String) (pub subj : String)
    (iks : Option (List String)) (pre : Option String) (key : String)
    (value : Value) (rest : List (String × Value)) (records : List AtomicRecord)
    (h : is_ignored iks key = false) (hd : isinstance_dict value = true) :
    record_loop ts cid pub subj iks pre ((key, value) :: rest) records =
      (match record_loop ts cid pub subj iks pre (dict_entries value) records with
       | (records2, Option.none) =>
         record_loop ts cid pub subj iks pre rest records2
       | (records2, some e) => (records2, some e)) := by
  rw [record_loop.eq_def]
  simp [h, hd]

theorem rl_cons_leaf_ok (ts : String) (cid : Option String) (pub subj : String)
    (iks : Option (List String)) (pre : Option String) (key : String)
    (value : Value) (rest : List (String × Value)) (records : List AtomicRecord)
    (t : PayloadType) (h : is_ignored iks key = false)
    (hd : isinstance_dict value = false)
    (ht : get_record_type value = Except.ok t) :
    record_loop ts cid pub subj iks pre ((key, value) :: rest) records =
      record_loop ts cid pub subj iks pre rest
        (records ++ [create_atomic_record ts subj pub
          (measurement_of_name pre key) value t cid]) := by
  rw [record_loop.eq_def]
  simp [h, hd, ht]

theorem rl_cons_leaf_error (ts : String) (cid : Option String) (pub subj : String)
    (iks : Option (List String)) (pre : Option String) (key : String)
    (value : Value) (rest : List (String × Value)) (records : List AtomicRecord)
    (e : RecordTypeError) (h : is_ignored iks key = false)
    (hd : isinstance_dict value = false)
    (he : get_record_type value = Except.error e) :
    record_loop ts cid pub subj iks pre ((key, value) :: rest) records =
      (records, some e) := by
  rw [record_loop.eq_def]
  simp [h, hd, he]

/-- The loop's direct recursion into a nested dict equals the source's
recursive call to `create_record_recursive` on that dict: the source's
`None`/empty test is subsumed by the loop's base case. -/
theorem record_loop_eq_create_record_recursive (ts : String)
    (cid : Option String) (pub subj : String) (iks : Option (List String))
    (pre : Option String) (sub : List (String × Value))
    (records : List AtomicRecord) :
    record_loop ts cid pub subj iks pre sub records =
      create_record_recursive (some sub) records ts cid pub subj iks pre := by
  cases sub with
  | nil => simp [create_record_recursive, rl_nil]
  | cons hd tl => simp [create_record_recursive]

/-! ### The accumulator is only appended to -/

theorem record_loop_append_aux (ts : String) (cid : Option String)
    (pub subj : String) (iks : Option (List String)) (pre : Option String)
    (entries : List (String × Value)) (records : List AtomicRecord) :
    ∀ records0, record_loop ts cid pub subj iks pre entries records0 =
      (records0 ++ (record_loop ts cid pub subj iks pre entries []).1,
       (record_loop ts cid pub subj iks pre entries []).2) := by
  induction entries, records using record_loop.induct ts cid pub subj iks pre with
  | case1 records =>
    intro r0
    simp [rl_nil]
  | case2 key value rest records h ih =>
    intro r0
    rw [rl_cons_ignored ts cid pub subj iks pre key value rest r0 h,
      rl_cons_ignored ts cid pub subj iks pre key value rest [] h]
    exact ih r0
  | case3 key value rest records h hd records2 hsub ih_sub ih_rest =>
    intro r0
    rw [Bool.not_eq_true] at h
    rw [rl_cons_dict ts cid pub subj iks pre key value rest r0 h hd,
      rl_cons_dict ts cid pub subj iks pre key value rest [] h hd]
    have hsub0 := ih_sub records
    rw [hsub] at hsub0
    have hE : (record_loop ts cid pub subj iks pre (dict_entries value) []).2 =
        Option.none := (Prod.mk.injEq _ _ _ _ |>.mp hsub0.symm).2
    rw [ih_sub r0, ih_sub [], hE]
    simp only [List.nil_append]
    rw [ih_rest ((record_loop ts cid pub subj iks pre (dict_entries value) []).1),
      ih_rest (r0 ++ (record_loop ts cid pub subj iks pre (dict_entries value) []).1)]
    simp [List.append_assoc]
  | case4 key value rest records h hd records2 e hsub ih_sub =>
    intro r0
    rw [Bool.not_eq_true] at h
    rw [rl_cons_dict ts cid pub subj iks pre key value rest r0 h hd,
      rl_cons_dict ts cid pub subj iks pre key value rest [] h hd]
    have hsub0 := ih_sub records
    rw [hsub] at hsub0
    have hE : (record_loop ts cid pub subj iks pre (dict_entries value) []).2 =
        some e := (Prod.mk.injEq _ _ _ _ |>.mp hsub0.symm).2
    rw [ih_sub r0, ih_sub [], hE]
  | case5 key value rest records h hd t ht ih =>
    intro r0
    rw [Bool.not_eq_true] at h
    rw [Bool.not_eq_true] at hd
    rw [rl_cons_leaf_ok ts cid pub subj iks pre key value rest r0 t h hd ht,
      rl_cons_leaf_ok ts cid pub subj iks pre key value rest [] t h hd ht]
    rw [ih (r0 ++ [create_atomic_record ts subj pub
        (measurement_of_name pre key) value t cid]),
      ih ([] ++ [create_atomic_record ts subj pub
        (measurement_of_name pre key) value t cid])]
    simp [List.append_assoc]
  | case6 key value rest records h hd e he =>
    intro r0
    rw [Bool.not_eq_true] at h
    rw [Bool.not_eq_true] at hd
    rw [rl_cons_leaf_error ts cid pub subj iks pre key value rest r0 e h hd he,
      rl_cons_leaf_error ts cid pub subj iks pre key value rest [] e h hd he]
    simp

/-- `record_loop` only ever appends to the `records` accumulator: the
result state is the initial state followed by the records the call
produces from an empty accumulator, and the error does not depend on the
accumulator. -/
theorem record_loop_append (ts : String) (cid : Option String)
    (pub subj : String) (iks : Option (List String)) (pre : Option String)
    (entries : List (String × Value)) (records : List AtomicRecord) :
    record_loop ts cid pub subj iks pre entries records =
      (records ++ (record_loop ts cid pub subj iks pre entries []).1,
       (record_loop ts cid pub subj iks pre entries []).2) :=
  record_loop_append_aux ts cid pub subj iks pre entries [] records

/-! ### The raised error is the first classification failure -/

theorem record_loop_snd_eq_specFirstFailure (ts : String) (cid : Option String)
    (pub subj : String) (iks : Option (List String)) (pre : Option String)
    (entries : List (String × Value)) (records : List AtomicRecord) :
    (record_loop ts cid pub subj iks pre entries records).2 =
      specFirstFailure iks entries := by
  induction entries, records using record_loop.induct ts cid pub subj iks pre with
  | case1 records =>
    rw [rl_nil, specFirstFailure.eq_def]
  | case2 key value rest records h ih =>
    rw [rl_cons_ignored ts cid pub subj iks pre key value rest records h,
      specFirstFailure.eq_def]
    simp [h, ih]
  | case3 key value rest records h hd records2 hsub ih_sub ih_rest =>
    rw [Bool.not_eq_true] at h
    rw [rl_cons_dict ts cid pub subj iks pre key value rest records h hd, hsub,
      specFirstFailure.eq_def]
    rw [hsub] at ih_sub
    simp [h, hd, ← ih_sub, ih_rest]
  | case4 key value rest records h hd records2 e hsub ih_sub =>
    rw [Bool.not_eq_true] at h
    rw [rl_cons_dict ts cid pub subj iks pre key value rest records h hd, hsub,
      specFirstFailure.eq_def]
    rw [hsub] at ih_sub
    simp [h, hd, ← ih_sub]
  | case5 key value rest records h hd t ht ih =>
    rw [Bool.not_eq_true] at h
    rw [Bool.not_eq_true] at hd
    rw [rl_cons_leaf_ok ts cid pub subj iks pre key value rest records t h hd ht,
      specFirstFailure.eq_def]
    simp [h, hd, ht, ih]
  | case6 key value rest records h hd e he =>
    rw [Bool.not_eq_true] at h
    rw [Bool.not_eq_true] at hd
    rw [rl_cons_leaf_error ts cid pub subj iks pre key value rest records e h hd he,
      specFirstFailure.eq_def]
    simp [h, hd, he]

/-! ### On success the produced names are the pre-order leaf keys -/

theorem record_loop_success_map_measurement_of (ts : String)
    (cid : Option String) (pub subj : String) (iks : Option (List String))
    (pre : Option String) (entries : List (String × Value))
    (records : List AtomicRecord)
    (h : (record_loop ts cid pub subj iks pre entries records).2 = Option.none) :
    ((record_loop ts cid pub subj iks pre entries records).1).map
        (fun r => r.measurement_of) =
      records.map (fun r => r.measurement_of) ++
        (specPreorderLeaves iks entries).map
          (fun kv => measurement_of_name pre kv.1) := by
  induction entries, records using record_loop.induct ts cid pub subj iks pre with
  | case1 records =>
    rw [specPreorderLeaves.eq_def]
    simp [rl_nil]
  | case2 key value rest records hig ih =>
    rw [rl_cons_ignored ts cid pub subj iks pre key value rest records hig] at h ⊢
    rw [specPreorderLeaves.eq_def]
    simp [hig, ih h]
  | case3 key value rest records hig hd records2 hsub ih_sub ih_rest =>
    rw [Bool.not_eq_true] at hig
    rw [rl_cons_dict ts cid pub subj iks pre key value rest records hig hd, hsub]
      at h ⊢
    simp only [] at h ⊢
    rw [specPreorderLeaves.eq_def]
    have hsub2 : (record_loop ts cid pub subj iks pre (dict_entries value)
        records).2 = Option.none := by rw [hsub]
    have h1 := ih_sub hsub2
    rw [hsub] at h1
    simp only [] at h1
    rw [ih_rest h, h1]
    simp [hig, hd, List.append_assoc]
  | case4 key value rest records hig hd records2 e hsub ih_sub =>
    rw [Bool.not_eq_true] at hig
    rw [rl_cons_dict ts cid pub subj iks pre key value rest records hig hd, hsub]
      at h
    simp at h
  | case5 key value rest records hig hd t ht ih =>
    rw [Bool.not_eq_true] at hig
    rw [Bool.not_eq_true] at hd
    rw [rl_cons_leaf_ok ts cid pub subj iks pre key value rest records t hig hd ht]
      at h ⊢
    rw [specPreorderLeaves.eq_def, ih h]
    simp [hig, hd, create_atomic_record]
  | case6 key value rest records hig hd e he =>
    rw [Bool.not_eq_true] at hig
    rw [Bool.not_eq_true] at hd
    rw [rl_cons_leaf_error ts cid pub subj iks pre key value rest records e hig hd he]
      at h
    simp at h

/-! ### Every produced record carries the call's metadata and is named
after a pre-order leaf key -/

theorem record_loop_mem_provenance (ts : String) (cid : Option String)
    (pub subj : String) (iks : Option (List String)) (pre : Option String)
    (entries : List (String × Value)) (records : List AtomicRecord) :
    ∀ r ∈ (record_loop ts cid pub subj iks pre entries records).1,
      r ∈ records ∨ (r.timestamp = ts ∧ r.measurement_publisher = pub ∧
        r.measurement_subject = subj ∧ r.correlation_id = cid ∧
        ∃ kv ∈ specPreorderLeaves iks entries,
          r.measurement_of = measurement_of_name pre kv.1 ∧
          r.measurement_value = kv.2) := by
  induction entries, records using record_loop.induct ts cid pub subj iks pre with
  | case1 records =>
    intro r hr
    rw [rl_nil] at hr
    exact Or.inl hr
  | case2 key value rest records hig ih =>
    intro r hr
    rw [rl_cons_ignored ts cid pub subj iks pre key value rest records hig] at hr
    rcases ih r hr with hmem | ⟨h1, h2, h3, h4, kv, hkv, h5⟩
    · exact Or.inl hmem
    · refine Or.inr ⟨h1, h2, h3, h4, kv, ?_, h5⟩
      rw [specPreorderLeaves.eq_def]
      simp [hig, hkv]
  | case3 key value rest records hig hd records2 hsub ih_sub ih_rest =>
    intro r hr
    rw [Bool.not_eq_true] at hig
    rw [rl_cons_dict ts cid pub subj iks pre key value rest records hig hd, hsub]
      at hr
    simp only [] at hr
    rcases ih_rest r hr with hmem | ⟨h1, h2, h3, h4, kv, hkv, h5⟩
    · have hmem2 : r ∈ (record_loop ts cid pub subj iks pre
          (dict_entries value) records).1 := by rw [hsub]; exact hmem
      rcases ih_sub r hmem2 with hmem3 | ⟨h1, h2, h3, h4, kv, hkv, h5⟩
      · exact Or.inl hmem3
      · refine Or.inr ⟨h1, h2, h3, h4, kv, ?_, h5⟩
        rw [specPreorderLeaves.eq_def]
        simp [hig, hd, hkv]
    · refine Or.inr ⟨h1, h2, h3, h4, kv, ?_, h5⟩
      rw [specPreorderLeaves.eq_def]
      simp [hig, hd, hkv]
  | case4 key value rest records hig hd records2 e hsub ih_sub =>
    intro r hr
    rw [Bool.not_eq_true] at hig
    rw [rl_cons_dict ts cid pub subj iks pre key value rest records hig hd, hsub]
      at hr
    simp only [] at hr
    have hmem2 : r ∈ (record_loop ts cid pub subj iks pre
        (dict_entries value) records).1 := by rw [hsub]; exact hr
    rcases ih_sub r hmem2 with hmem3 | ⟨h1, h2, h3, h4, kv, hkv, h5⟩
    · exact Or.inl hmem3
    · refine Or.inr ⟨h1, h2, h3, h4, kv, ?_, h5⟩
      rw [specPreorderLeaves.eq_def]
      simp [hig, hd, hkv]
  | case5 key value rest records hig hd t ht ih =>
    intro r hr
    rw [Bool.not_eq_true] at hig
    rw [Bool.not_eq_true] at hd
    rw [rl_cons_leaf_ok ts cid pub subj iks pre key value rest records t hig hd ht]
      at hr
    rcases ih r hr with hmem | ⟨h1, h2, h3, h4, kv, hkv, h5⟩
    · rcases List.mem_append.mp hmem with hmem1 | hmem1
      · exact Or.inl hmem1
      · have hreq : r = create_atomic_record ts subj pub
            (measurement_of_name pre key) value t cid := List.mem_singleton.mp hmem1
        subst hreq
        refine Or.inr ⟨rfl, rfl, rfl, rfl, (key, value), ?_, rfl, rfl⟩
        rw [specPreorderLeaves.eq_def]
        simp [hig, hd]
    · refine Or.inr ⟨h1, h2, h3, h4, kv, ?_, h5⟩
      rw [specPreorderLeaves.eq_def]
      simp [hig, hd, hkv]
  | case6 key value rest records hig hd e he =>
    intro r hr
    rw [Bool.not_eq_true] at hig
    rw [Bool.not_eq_true] at hd
    rw [rl_cons_leaf_error ts cid pub subj iks pre key value rest records e hig hd he]
      at hr
    exact Or.inl hr

/-! ### Ignored keys and their subtrees contribute nothing -/

theorem record_loop_erase_ignored (ts : String) (cid : Option String)
    (pub subj : String) (iks : Option (List String)) (pre : Option String)
    (entries : List (String × Value)) (records : List AtomicRecord) :
    record_loop ts cid pub subj iks pre entries records =
      record_loop ts cid pub subj iks pre (erase_ignored iks entries) records := by
  induction entries, records using record_loop.induct ts cid pub subj iks pre with
  | case1 records =>
    rw [erase_ignored.eq_def]
  | case2 key value rest records hig ih =>
    rw [rl_cons_ignored ts cid pub subj iks pre key value rest records hig,
      erase_ignored.eq_def]
    simp only [hig, if_true]
    exact ih
  | case3 key value rest records hig hd records2 hsub ih_sub ih_rest =>
    rw [Bool.not_eq_true] at hig
    rw [rl_cons_dict ts cid pub subj iks pre key value rest records hig hd, hsub,
      erase_ignored.eq_def]
    simp only [hig, hd, if_false, if_true, Bool.false_eq_true]
    rw [rl_cons_dict ts cid pub subj iks pre key
      (Value.dict (erase_ignored iks (dict_entries value)))
      (erase_ignored iks rest) records hig rfl]
    have : dict_entries (Value.dict (erase_ignored iks (dict_entries value))) =
        erase_ignored iks (dict_entries value) := rfl
    rw [this, ← ih_sub, hsub]
    simp only []
    exact ih_rest
  | case4 key value rest records hig hd records2 e hsub ih_sub =>
    rw [Bool.not_eq_true] at hig
    rw [rl_cons_dict ts cid pub subj iks pre key value rest records hig hd, hsub,
      erase_ignored.eq_def]
    simp only [hig, hd, if_false, if_true, Bool.false_eq_true]
    rw [rl_cons_dict ts cid pub subj iks pre key
      (Value.dict (erase_ignored iks (dict_entries value)))
      (erase_ignored iks rest) records hig rfl]
    have : dict_entries (Value.dict (erase_ignored iks (dict_entries value))) =
        erase_ignored iks (dict_entries value) := rfl
    rw [this, ← ih_sub, hsub]
  | case5 key value rest records hig hd t ht ih =>
    rw [Bool.not_eq_true] at hig
    rw [Bool.not_eq_true] at hd
    rw [rl_cons_leaf_ok ts cid pub subj iks pre key value rest records t hig hd ht,
      erase_ignored.eq_def]
    simp only [hig, hd, if_false, Bool.false_eq_true]
    rw [rl_cons_leaf_ok ts cid pub subj iks pre key value
      (erase_ignored iks rest) records t hig hd ht]
    exact ih
  | case6 key value rest records hig hd e he =>
    rw [Bool.not_eq_true] at hig
    rw [Bool.not_eq_true] at hd
    rw [rl_cons_leaf_error ts cid pub subj iks pre key value rest records e hig hd he,
      erase_ignored.eq_def]
    simp only [hig, hd, if_false, Bool.false_eq_true]
    rw [rl_cons_leaf_error ts cid pub subj iks pre key value
      (erase_ignored iks rest) records e hig hd he]

theorem erase_ignored_no_mention (iks : Option (List String)) (k : String)
    (hk : is_ignored iks k = true) (entries : List (String × Value)) :
    mentions_key k (erase_ignored iks entries) = false := by
  induction entries using erase_ignored.induct iks with
  | case1 =>
    rw [erase_ignored.eq_def, mentions_key.eq_def]
  | case2 k2 v rest hig ih =>
    rw [erase_ignored.eq_def]
    simp only [hig, if_true]
    exact ih
  | case3 k2 v rest hig hd ih_sub ih_rest =>
    rw [Bool.not_eq_true] at hig
    rw [erase_ignored.eq_def]
    simp only [hig, hd, if_false, if_true, Bool.false_eq_true]
    rw [mentions_key.eq_def]
    have hne : (k2 == k) = false := by
      by_cases hkk : k2 = k
      · subst hkk
        rw [hig] at hk
        simp at hk
      · exact beq_eq_false_iff_ne.mpr hkk
    have : dict_entries (Value.dict (erase_ignored iks (dict_entries v))) =
        erase_ignored iks (dict_entries v) := rfl
    simp [hne, this, ih_sub, ih_rest]
  | case4 k2 v rest hig hd ih =>
    rw [Bool.not_eq_true] at hig
    rw [Bool.not_eq_true] at hd
    rw [erase_ignored.eq_def]
    simp only [hig, hd, if_false, Bool.false_eq_true]
    rw [mentions_key.eq_def]
    have hne : (k2 == k) = false := by
      by_cases hkk : k2 = k
      · subst hkk
        rw [hig] at hk
        simp at hk
      · exact beq_eq_false_iff_ne.mpr hkk
    simp [hne, hd, ih]

/-! ### Claims about the classifier -/

/-- C1: for every scalar input the classifier follows the precedence
order: a string returns STRING; otherwise a boolean returns BOOLEAN (so
`True` and `False` are never classified NUMBER); otherwise an integer or
float returns NUMBER; otherwise a 2-element list of numeric values
returns GEOGRAPHY; in particular `"abc"` → STRING, `True` → BOOLEAN,
`False` → BOOLEAN, `42` → NUMBER, `3.14` → NUMBER,
`[1.0, 2.0]` → GEOGRAPHY. -/
theorem classifier_precedence_table :
    (∀ s, get_record_type (Value.str s) = Except.ok PayloadType.STRING) ∧
    (∀ b, get_record_type (Value.bool b) = Except.ok PayloadType.BOOLEAN) ∧
    (∀ n : Int, get_record_type (Value.int n) = Except.ok PayloadType.NUMBER) ∧
    (∀ q : Rat, get_record_type (Value.float q) = Except.ok PayloadType.NUMBER) ∧
    (∀ xs : List Value, xs.length = 2 →
      (∀ x ∈ xs, (∃ n : Int, x = Value.int n) ∨ (∃ q : Rat, x = Value.float q)) →
      get_record_type (Value.list xs) = Except.ok PayloadType.GEOGRAPHY) ∧
    get_record_type (Value.str "abc") = Except.ok PayloadType.STRING ∧
    get_record_type (Value.bool true) = Except.ok PayloadType.BOOLEAN ∧
    get_record_type (Value.bool false) = Except.ok PayloadType.BOOLEAN ∧
    get_record_type (Value.int 42) = Except.ok PayloadType.NUMBER ∧
    get_record_type (Value.float (157/50)) = Except.ok PayloadType.NUMBER ∧
    get_record_type (Value.list [Value.float 1, Value.float 2]) =
      Except.ok PayloadType.GEOGRAPHY := by
  refine ⟨fun s => rfl, fun b => rfl, fun n => rfl, fun q => rfl, ?_,
    rfl, rfl, rfl, rfl, rfl, rfl⟩
  intro xs h2 hall
  have hcond : (list_elems (Value.list xs)).length = 2 ∧
      (list_elems (Value.list xs)).all isinstance_int_float := by
    refine ⟨h2, ?_⟩
    rw [List.all_eq_true]
    intro x hx
    rcases hall x hx with ⟨n, hn⟩ | ⟨q, hq⟩
    · subst hn; rfl
    · subst hq; rfl
  simp [get_record_type, isinstance_str, type_is_bool, isinstance_int_float,
    isinstance_list, hcond.1, hcond.2]

theorem classifier_precedence_table_witness :
    get_record_type (Value.list [Value.int 3, Value.float (1/2)]) =
      Except.ok PayloadType.GEOGRAPHY := by
  refine classifier_precedence_table.2.2.2.2.1
    [Value.int 3, Value.float (1/2)] rfl ?_
  intro x hx
  rcases List.mem_cons.mp hx with h1 | hx2
  · exact Or.inl ⟨3, h1⟩
  · rcases List.mem_cons.mp hx2 with h2 | hx3
    · exact Or.inr ⟨1/2, h2⟩
    · simp at hx3

/-- C2: the classifier fails exactly on the inputs matching none of the
four tags, with a two-way partition: a list that is not exactly two
numeric elements fails with `invalidCoordinatePair` carrying the
offending sequence; any other unmatched shape (`None`, a dict passed as
a leaf, an arbitrary object) fails with `unknownPayloadType` carrying
the runtime type name; it never fails on a string, boolean, number, or
2-element numeric list. -/
theorem classifier_error_partition :
    (∀ xs : List Value,
      ¬(xs.length = 2 ∧ ∀ x ∈ xs, isinstance_int_float x = true) →
      get_record_type (Value.list xs) =
        Except.error (RecordTypeError.invalidCoordinatePair xs)) ∧
    (get_record_type Value.none =
      Except.error (RecordTypeError.unknownPayloadType "NoneType")) ∧
    (∀ es, get_record_type (Value.dict es) =
      Except.error (RecordTypeError.unknownPayloadType "dict")) ∧
    (∀ t, get_record_type (Value.obj t) =
      Except.error (RecordTypeError.unknownPayloadType t)) ∧
    (∀ s, get_record_type (Value.str s) = Except.ok PayloadType.STRING) ∧
    (∀ b, get_record_type (Value.bool b) = Except.ok PayloadType.BOOLEAN) ∧
    (∀ n : Int, get_record_type (Value.int n) = Except.ok PayloadType.NUMBER) ∧
    (∀ q : Rat, get_record_type (Value.float q) = Except.ok PayloadType.NUMBER) ∧
    (∀ xs : List Value, xs.length = 2 →
      (∀ x ∈ xs, isinstance_int_float x = true) →
      get_record_type (Value.list xs) = Except.ok PayloadType.GEOGRAPHY) := by
  refine ⟨?_, rfl, fun es => rfl, fun t => rfl, fun s => rfl, fun b => rfl,
    fun n => rfl, fun q => rfl, ?_⟩
  · intro xs h
    have hcond : ¬((list_elems (Value.list xs)).length = 2 ∧
        (list_elems (Value.list xs)).all isinstance_int_float) := by
      intro hc
      exact h ⟨hc.1, List.all_eq_true.mp hc.2⟩
    have heq : get_record_type (Value.list xs) =
        if (list_elems (Value.list xs)).length = 2 ∧
            (list_elems (Value.list xs)).all isinstance_int_float then
          Except.ok PayloadType.GEOGRAPHY
        else Except.error (RecordTypeError.invalidCoordinatePair
          (list_elems (Value.list xs))) := rfl
    rw [heq, if_neg hcond]
    rfl
  · intro xs h2 hall
    have hcond : (list_elems (Value.list xs)).length = 2 ∧
        (list_elems (Value.list xs)).all isinstance_int_float :=
      ⟨h2, List.all_eq_true.mpr hall⟩
    have heq : get_record_type (Value.list xs) =
        if (list_elems (Value.list xs)).length = 2 ∧
            (list_elems (Value.list xs)).all isinstance_int_float then
          Except.ok PayloadType.GEOGRAPHY
        else Except.error (RecordTypeError.invalidCoordinatePair
          (list_elems (Value.list xs))) := rfl
    rw [heq, if_pos hcond]

theorem classifier_error_partition_witness :
    get_record_type (Value.list [Value.int 1, Value.int 2, Value.int 3]) =
      Except.error (RecordTypeError.invalidCoordinatePair
        [Value.int 1, Value.int 2, Value.int 3]) := by
  refine classifier_error_partition.1 [Value.int 1, Value.int 2, Value.int 3] ?_
  intro hc
  exact absurd hc.1 (by decide)

/-- C10: boolean elements count as numeric in the coordinate-pair check
(`bool` is a subclass of `int` in Python): every 2-element list whose
elements are each a boolean, an integer or a float classifies as
GEOGRAPHY, e.g. `[True, False]` and `[True, 1.5]`. -/
theorem coordinate_pair_admits_booleans :
    (∀ xs : List Value, xs.length = 2 →
      (∀ x ∈ xs, (∃ b, x = Value.bool b) ∨ (∃ n : Int, x = Value.int n) ∨
        (∃ q : Rat, x = Value.float q)) →
      get_record_type (Value.list xs) = Except.ok PayloadType.GEOGRAPHY) ∧
    get_record_type (Value.list [Value.bool true, Value.bool false]) =
      Except.ok PayloadType.GEOGRAPHY ∧
    get_record_type (Value.list [Value.bool true, Value.float (3/2)]) =
      Except.ok PayloadType.GEOGRAPHY := by
  refine ⟨?_, rfl, rfl⟩
  intro xs h2 hall
  have hcond : (list_elems (Value.list xs)).length = 2 ∧
      (list_elems (Value.list xs)).all isinstance_int_float := by
    refine ⟨h2, ?_⟩
    rw [List.all_eq_true]
    intro x hx
    rcases hall x hx with ⟨b, hb⟩ | ⟨n, hn⟩ | ⟨q, hq⟩
    · subst hb; rfl
    · subst hn; rfl
    · subst hq; rfl
  have heq : get_record_type (Value.list xs) =
      if (list_elems (Value.list xs)).length = 2 ∧
          (list_elems (Value.list xs)).all isinstance_int_float then
        Except.ok PayloadType.GEOGRAPHY
      else Except.error (RecordTypeError.invalidCoordinatePair
        (list_elems (Value.list xs))) := rfl
  rw [heq, if_pos hcond]

theorem coordinate_pair_admits_booleans_witness :
    get_record_type (Value.list [Value.bool false, Value.int 7]) =
      Except.ok PayloadType.GEOGRAPHY := by
  refine coordinate_pair_admits_booleans.1 [Value.bool false, Value.int 7] rfl ?_
  intro x hx
  rcases List.mem_cons.mp hx with h1 | hx2
  · exact Or.inl ⟨false, h1⟩
  · rcases List.mem_cons.mp hx2 with h2 | hx3
    · exact Or.inr (Or.inl ⟨7, h2⟩)
    · simp at hx3

/-! ### Claims about the flattener -/

/-- C3: flattening emits records in depth-first pre-order following each
mapping's insertion-order key iteration at every nesting level: on
success the sequence of `measurement_of` names equals the pre-order
enumeration of the leaf keys; in particular flattening
`{"a": 1, "b": {"c": 2, "d": 3}}` with no prefix and no ignore set
yields exactly the records named `"a"`, `"c"`, `"d"` in that order. -/
theorem flatten_preorder :
    (∀ (ts : String) (cid : Option String) (pub subj : String)
      (iks : Option (List String)) (pre : Option String)
      (entries : List (String × Value)),
      (flatten (some entries) ts cid pub subj iks pre).2 = Option.none →
      ((flatten (some entries) ts cid pub subj iks pre).1).map
          (fun r => r.measurement_of) =
        (specPreorderLeaves iks entries).map
          (fun kv => measurement_of_name pre kv.1)) ∧
    (flatten (some [("a", Value.int 1),
        ("b", Value.dict [("c", Value.int 2), ("d", Value.int 3)])])
        "t" (some "cid") "pub" "sub" Option.none Option.none).1.map
        (fun r => r.measurement_of) = ["a", "c", "d"] ∧
    (flatten (some [("a", Value.int 1),
        ("b", Value.dict [("c", Value.int 2), ("d", Value.int 3)])])
        "t" (some "cid") "pub" "sub" Option.none Option.none).2 =
      Option.none := by
  refine ⟨?_, ?_, ?_⟩
  · intro ts cid pub subj iks pre entries h
    rw [flatten, ← record_loop_eq_create_record_recursive] at h ⊢
    rw [record_loop_success_map_measurement_of ts cid pub subj iks pre entries [] h]
    simp
  · simp [flatten, create_record_recursive, record_loop, is_ignored,
      isinstance_dict, dict_entries, get_record_type, isinstance_str,
      type_is_bool, isinstance_int_float, isinstance_list,
      create_atomic_record, measurement_of_name, PayloadType.value]
  · simp [flatten, create_record_recursive, record_loop, is_ignored,
      isinstance_dict, dict_entries, get_record_type, isinstance_str,
      type_is_bool, isinstance_int_float, isinstance_list,
      create_atomic_record, measurement_of_name, PayloadType.value]

theorem flatten_preorder_witness :
    (flatten (some [("x", Value.int 5)]) "t" Option.none "p" "s" Option.none
        Option.none).2 = Option.none ∧
    ((flatten (some [("x", Value.int 5)]) "t" Option.none "p" "s" Option.none
        Option.none).1).map (fun r => r.measurement_of) =
      (specPreorderLeaves Option.none [("x", Value.int 5)]).map
        (fun kv => measurement_of_name Option.none kv.1) := by
  have h2 : (flatten (some [("x", Value.int 5)]) "t" Option.none "p" "s"
      Option.none Option.none).2 = Option.none := by
    simp [flatten, create_record_recursive, record_loop, is_ignored,
      isinstance_dict, dict_entries, get_record_type, isinstance_str,
      type_is_bool, isinstance_int_float, isinstance_list,
      create_atomic_record, measurement_of_name, PayloadType.value]
  exact ⟨h2, flatten_preorder.1 "t" Option.none "p" "s" Option.none
    Option.none [("x", Value.int 5)] h2⟩

/-- C4: on success every record in the output carries exactly the
call's metadata arguments — timestamp, publisher, subject and
correlation id — at every nesting depth. -/
theorem flatten_metadata (ts : String) (cid : Option String)
    (pub subj : String) (iks : Option (List String)) (pre : Option String)
    (payload : Option (List (String × Value)))
    (h : (flatten payload ts cid pub subj iks pre).2 = Option.none) :
    ∀ r ∈ (flatten payload ts cid pub subj iks pre).1,
      r.timestamp = ts ∧ r.measurement_publisher = pub ∧
      r.measurement_subject = subj ∧ r.correlation_id = cid := by
  intro r hr
  cases payload with
  | none => simp [flatten, create_record_recursive] at hr
  | some entries =>
    rw [flatten, ← record_loop_eq_create_record_recursive] at hr
    rcases record_loop_mem_provenance ts cid pub subj iks pre entries [] r hr with
      hmem | ⟨h1, h2, h3, h4, _⟩
    · simp at hmem
    · exact ⟨h1, h2, h3, h4⟩

theorem flatten_metadata_witness :
    (create_atomic_record "t" "s" "p" "x" (Value.int 5) PayloadType.NUMBER
        (some "c")).timestamp = "t" ∧
    (create_atomic_record "t" "s" "p" "x" (Value.int 5) PayloadType.NUMBER
        (some "c")).measurement_publisher = "p" ∧
    (create_atomic_record "t" "s" "p" "x" (Value.int 5) PayloadType.NUMBER
        (some "c")).measurement_subject = "s" ∧
    (create_atomic_record "t" "s" "p" "x" (Value.int 5) PayloadType.NUMBER
        (some "c")).correlation_id = some "c" := by
  have hflat : flatten (some [("x", Value.int 5)]) "t" (some "c") "p" "s"
      Option.none Option.none =
      ([create_atomic_record "t" "s" "p" "x" (Value.int 5) PayloadType.NUMBER
        (some "c")], Option.none) := by
    simp [flatten, create_record_recursive, record_loop, is_ignored,
      isinstance_dict, dict_entries, get_record_type, isinstance_str,
      type_is_bool, isinstance_int_float, isinstance_list,
      create_atomic_record, measurement_of_name, PayloadType.value]
  exact flatten_metadata "t" (some "c") "p" "s" Option.none Option.none
    (some [("x", Value.int 5)]) (by rw [hflat])
    (create_atomic_record "t" "s" "p" "x" (Value.int 5) PayloadType.NUMBER
      (some "c"))
    (by rw [hflat]; exact List.mem_singleton_self _)

/-- C5: for every ignore set containing a key `k`, flattening produces
no record for `k` or any of its descendants — the whole subtree is
skipped — while the keys not in the ignore set are processed normally:
the call equals the call on the payload with every ignored key erased
at every depth, and that erased payload mentions `k` nowhere. -/
theorem flatten_ignore_exclusion (ts : String) (cid : Option String)
    (pub subj : String) (iks : List String) (pre : Option String)
    (entries : List (String × Value)) (k : String) (hk : k ∈ iks) :
    flatten (some entries) ts cid pub subj (some iks) pre =
      flatten (some (erase_ignored (some iks) entries)) ts cid pub subj
        (some iks) pre ∧
    mentions_key k (erase_ignored (some iks) entries) = false := by
  constructor
  · rw [flatten, flatten, ← record_loop_eq_create_record_recursive,
      ← record_loop_eq_create_record_recursive]
    exact record_loop_erase_ignored ts cid pub subj (some iks) pre entries []
  · refine erase_ignored_no_mention (some iks) k ?_ entries
    simp [is_ignored]
    exact hk

theorem flatten_ignore_exclusion_witness :
    (flatten (some [("k", Value.int 1), ("b", Value.int 2)]) "t" (some "c")
        "p" "s" (some ["k"]) Option.none =
      flatten (some (erase_ignored (some ["k"])
          [("k", Value.int 1), ("b", Value.int 2)])) "t" (some "c")
        "p" "s" (some ["k"]) Option.none) ∧
    mentions_key "k" (erase_ignored (some ["k"])
      [("k", Value.int 1), ("b", Value.int 2)]) = false :=
  flatten_ignore_exclusion "t" (some "c") "p" "s" ["k"] Option.none
    [("k", Value.int 1), ("b", Value.int 2)] "k" (List.mem_singleton_self "k")

/-- C6: with a prefix `p` supplied, every emitted record's
`measurement_of` is `p ++ "_" ++ leaf key`, uniformly at every
recursion depth (only the leaf key contributes); with no prefix it is
the leaf key alone; in particular flattening `{"loc": {"x": 1}}` with
prefix `"p"` yields a record named `"p_x"`. -/
theorem flatten_prefix_application :
    (∀ (ts : String) (cid : Option String) (pub subj : String)
      (iks : Option (List String)) (p : String)
      (entries : List (String × Value)),
      ∀ r ∈ (flatten (some entries) ts cid pub subj iks (some p)).1,
        ∃ kv ∈ specPreorderLeaves iks entries,
          r.measurement_of = p ++ "_" ++ kv.1) ∧
    (∀ (ts : String) (cid : Option String) (pub subj : String)
      (iks : Option (List String)) (entries : List (String × Value)),
      ∀ r ∈ (flatten (some entries) ts cid pub subj iks Option.none).1,
        ∃ kv ∈ specPreorderLeaves iks entries, r.measurement_of = kv.1) ∧
    (flatten (some [("loc", Value.dict [("x", Value.int 1)])]) "t" (some "c")
        "pub" "sub" Option.none (some "p")).1.map
        (fun r => r.measurement_of) = ["p_x"] := by
  refine ⟨?_, ?_, ?_⟩
  · intro ts cid pub subj iks p entries r hr
    rw [flatten, ← record_loop_eq_create_record_recursive] at hr
    rcases record_loop_mem_provenance ts cid pub subj iks (some p) entries [] r
        hr with hmem | ⟨_, _, _, _, kv, hkv, h5, _⟩
    · simp at hmem
    · exact ⟨kv, hkv, h5⟩
  · intro ts cid pub subj iks entries r hr
    rw [flatten, ← record_loop_eq_create_record_recursive] at hr
    rcases record_loop_mem_provenance ts cid pub subj iks Option.none entries []
        r hr with hmem | ⟨_, _, _, _, kv, hkv, h5, _⟩
    · simp at hmem
    · exact ⟨kv, hkv, h5⟩
  · simp [flatten, create_record_recursive, record_loop, is_ignored,
      isinstance_dict, dict_entries, get_record_type, isinstance_str,
      type_is_bool, isinstance_int_float, isinstance_list,
      create_atomic_record, measurement_of_name, PayloadType.value]

theorem flatten_prefix_application_witness :
    ∃ kv ∈ specPreorderLeaves Option.none
        [("loc", Value.dict [("x", Value.int 1)])],
      (create_atomic_record "t" "sub" "pub" "p_x" (Value.int 1)
        PayloadType.NUMBER (some "c")).measurement_of = "p" ++ "_" ++ kv.1 := by
  have hflat : flatten (some [("loc", Value.dict [("x", Value.int 1)])]) "t"
      (some "c") "pub" "sub" Option.none (some "p") =
      ([create_atomic_record "t" "sub" "pub" "p_x" (Value.int 1)
        PayloadType.NUMBER (some "c")], Option.none) := by
    simp [flatten, create_record_recursive, record_loop, is_ignored,
      isinstance_dict, dict_entries, get_record_type, isinstance_str,
      type_is_bool, isinstance_int_float, isinstance_list,
      create_atomic_record, measurement_of_name, PayloadType.value]
  exact flatten_prefix_application.1 "t" (some "c") "pub" "sub" Option.none
    "p" [("loc", Value.dict [("x", Value.int 1)])]
    (create_atomic_record "t" "sub" "pub" "p_x" (Value.int 1)
      PayloadType.NUMBER (some "c"))
    (by rw [hflat]; exact List.mem_singleton_self _)

/-- C7: flattening an absent (`None`) payload and flattening an empty
mapping both return the empty sequence and raise nothing. -/
theorem flatten_empty_absent (ts : String) (cid : Option String)
    (pub subj : String) (iks : Option (List String)) (pre : Option String) :
    flatten Option.none ts cid pub subj iks pre = ([], Option.none) ∧
    flatten (some []) ts cid pub subj iks pre = ([], Option.none) :=
  ⟨rfl, rfl⟩

/-- C8 counterexample: flattening `{"a": 1, "b": None}` raises the
classifier's error, but the record for `"a"`, appended to the
caller-supplied `records` list before the failure, remains observable
there — a partial record sequence is produced. -/
theorem flatten_failfast_counterexample :
    flatten (some [("a", Value.int 1), ("b", Value.none)]) "t" (some "c")
        "pub" "sub" Option.none Option.none =
      ([create_atomic_record "t" "sub" "pub" "a" (Value.int 1)
          PayloadType.NUMBER (some "c")],
        some (RecordTypeError.unknownPayloadType "NoneType")) ∧
    [create_atomic_record "t" "sub" "pub" "a" (Value.int 1)
      PayloadType.NUMBER (some "c")] ≠ ([] : List AtomicRecord) := by
  constructor
  · simp [flatten, create_record_recursive, record_loop, is_ignored,
      isinstance_dict, dict_entries, get_record_type, isinstance_str,
      type_is_bool, isinstance_int_float, isinstance_list,
      create_atomic_record, measurement_of_name, PayloadType.value,
      py_type_name]
  · simp

/-- C8 amended: the error component of a flattening call is exactly the
classifier's error on the first non-ignored failing value in traversal
order, unchanged through all recursion levels — in particular the call
fails exactly when some non-ignored value at some depth fails
classification, and succeeds with a complete sequence otherwise.  (On
failure no list is returned, but the caller-supplied accumulator
retains the records appended before the failure point.) -/
theorem flatten_error_propagation (ts : String) (cid : Option String)
    (pub subj : String) (iks : Option (List String)) (pre : Option String)
    (entries : List (String × Value)) (records : List AtomicRecord) :
    (create_record_recursive (some entries) records ts cid pub subj iks
        pre).2 = specFirstFailure iks entries := by
  rw [← record_loop_eq_create_record_recursive]
  exact record_loop_snd_eq_specFirstFailure ts cid pub subj iks pre entries
    records

/-- C9: `create_record_recursive` is an accumulator appender: on success
its result is the prior contents of `records` followed by the records
newly produced from the payload; with a `None` or empty payload it
returns `records` unchanged, which is the empty sequence exactly when
the caller passed an empty accumulator. -/
theorem create_record_recursive_appends (ts : String) (cid : Option String)
    (pub subj : String) (iks : Option (List String)) (pre : Option String)
    (payload : Option (List (String × Value))) (records : List AtomicRecord)
    (h : (create_record_recursive payload records ts cid pub subj iks
      pre).2 = Option.none) :
    (create_record_recursive payload records ts cid pub subj iks pre).1 =
      records ++
        (create_record_recursive payload [] ts cid pub subj iks pre).1 ∧
    create_record_recursive Option.none records ts cid pub subj iks pre =
      (records, Option.none) ∧
    create_record_recursive (some []) records ts cid pub subj iks pre =
      (records, Option.none) ∧
    ((create_record_recursive Option.none records ts cid pub subj iks
        pre).1 = [] ↔ records = []) := by
  refine ⟨?_, rfl, rfl, Iff.rfl⟩
  cases payload with
  | none => simp [create_record_recursive]
  | some entries =>
    rw [← record_loop_eq_create_record_recursive,
      ← record_loop_eq_create_record_recursive,
      record_loop_append ts cid pub subj iks pre entries records]

theorem create_record_recursive_appends_witness :
    ((create_record_recursive (some [("x", Value.int 5)])
        [create_atomic_record "t0" "s0" "p0" "y" (Value.int 9)
          PayloadType.NUMBER Option.none] "t" (some "c") "p" "s" Option.none
        Option.none).1 =
      [create_atomic_record "t0" "s0" "p0" "y" (Value.int 9)
        PayloadType.NUMBER Option.none] ++
        (create_record_recursive (some [("x", Value.int 5)]) [] "t" (some "c")
          "p" "s" Option.none Option.none).1) ∧
    create_record_recursive Option.none
        [create_atomic_record "t0" "s0" "p0" "y" (Value.int 9)
          PayloadType.NUMBER Option.none] "t" (some "c") "p" "s" Option.none
        Option.none =
      ([create_atomic_record "t0" "s0" "p0" "y" (Value.int 9)
        PayloadType.NUMBER Option.none], Option.none) ∧
    create_record_recursive (some [])
        [create_atomic_record "t0" "s0" "p0" "y" (Value.int 9)
          PayloadType.NUMBER Option.none] "t" (some "c") "p" "s" Option.none
        Option.none =
      ([create_atomic_record "t0" "s0" "p0" "y" (Value.int 9)
        PayloadType.NUMBER Option.none], Option.none) ∧
    ((create_record_recursive Option.none
        [create_atomic_record "t0" "s0" "p0" "y" (Value.int 9)
          PayloadType.NUMBER Option.none] "t" (some "c") "p" "s" Option.none
        Option.none).1 = [] ↔
      [create_atomic_record "t0" "s0" "p0" "y" (Value.int 9)
        PayloadType.NUMBER Option.none] = []) :=
  create_record_recursive_appends "t" (some "c") "p" "s" Option.none
    Option.none (some [("x", Value.int 5)])
    [create_atomic_record "t0" "s0" "p0" "y" (Value.int 9)
      PayloadType.NUMBER Option.none]
    (by simp [create_record_recursive, record_loop, is_ignored,
      isinstance_dict, dict_entries, get_record_type, isinstance_str,
      type_is_bool, isinstance_int_float, isinstance_list,
      create_atomic_record, measurement_of_name, PayloadType.value])

end Timeseries
